import Mathlib

/-!
Shallow embedding of the Tokopedia client API gateway (src/main.rs):
content negotiation over the Accept header, routing, the upstream JSON
transformations for the search and lookup endpoints, and the final
response classification.  Strings are modelled as lists of characters,
machine integers as Nat with explicit bounds where overflow matters.
A Rust unwrap panic and an error propagated with the question mark
operator are modelled as distinct non-response outcomes, since both
abort the handler without producing an HTTP response.
-/

/-- Character-list representation of a string literal, used throughout the
embedding. -/
def cs (s : String) : List Char := s.toList

/-- Whitespace predicate used by trimming, restricted to the ASCII
whitespace characters that can occur in HTTP header values. -/
def isSpaceChar (c : Char) : Bool :=
  c == ' ' || c == '\t' || c == '\n' || c == '\r'

/-- Rust str::trim over the modelled whitespace predicate. -/
def trimChars (s : List Char) : List Char :=
  ((s.dropWhile isSpaceChar).reverse.dropWhile isSpaceChar).reverse

/-- Rust str::split with a single-character pattern: the chunks between
occurrences of the separator.  The result is never empty. -/
def splitOnChar (sep : Char) : List Char → List (List Char)
  | [] => [[]]
  | c :: rest =>
    if c = sep then [] :: splitOnChar sep rest
    else
      match splitOnChar sep rest with
      | [] => [[c]]
      | t :: ts => (c :: t) :: ts

/-- Rust str::split_once: the parts strictly before and strictly after the
first occurrence of pat, or none when pat never occurs.  An empty pattern
matches at the start, as in Rust. -/
def splitOnce (pat : List Char) : List Char → Option (List Char × List Char)
  | [] => if pat.isPrefixOf ([] : List Char) then some ([], []) else none
  | c :: rest =>
    if pat.isPrefixOf (c :: rest) then some ([], (c :: rest).drop pat.length)
    else (splitOnce pat rest).map fun p => (c :: p.1, p.2)

/-- Rust str::contains for substring patterns. -/
def containsSub (s pat : List Char) : Bool := (splitOnce pat s).isSome

/-- Index of the first position at which pat occurs in s, that is the first
suffix of s of which pat is a prefix. -/
def firstOccIdx (pat : List Char) : List Char → Option Nat
  | [] => if pat.isPrefixOf ([] : List Char) then some 0 else none
  | c :: rest =>
    if pat.isPrefixOf (c :: rest) then some 0
    else (firstOccIdx pat rest).map (· + 1)

/-- Fuel-indexed worker for replaceAll; the fuel always bounds the length
of the remaining input, so the zero-fuel arm is never reached on the
calls made by replaceAll. -/
def replaceAllFuel (pat rep : List Char) : Nat → List Char → List Char
  | _, [] => []
  | 0, s => s
  | fuel + 1, c :: rest =>
    if pat.isPrefixOf (c :: rest) ∧ pat ≠ [] then
      rep ++ replaceAllFuel pat rep fuel ((c :: rest).drop pat.length)
    else c :: replaceAllFuel pat rep fuel rest

/-- Rust str::replace for a nonempty pattern: every non-overlapping
occurrence of pat is replaced, scanning left to right. -/
def replaceAll (pat rep s : List Char) : List Char :=
  replaceAllFuel pat rep s.length s

/-- Digit-accumulating worker for parseUsize. -/
def parseDigits : Nat → List Char → Option Nat
  | acc, [] => some acc
  | acc, c :: rest =>
    if c.isDigit then parseDigits (acc * 10 + (c.toNat - '0'.toNat)) rest
    else none

/-- Rust str::parse::<usize> on a 64-bit platform: an optional leading plus
sign, then one or more ASCII digits, with values at or above 2^64
rejected as overflow. -/
def parseUsize (s : List Char) : Option Nat :=
  let t := match s with
    | '+' :: rest => rest
    | _ => s
  match t with
  | [] => none
  | _ =>
    match parseDigits 0 t with
    | none => none
    | some n => if n < 2 ^ 64 then some n else none

/-- Model of serde_json::Value as consumed by this program.  Numbers are
modelled as natural numbers, which covers every numeric value the program
reads (its only numeric accessor is as_u64). -/
inductive Json where
  | null
  | bool (b : Bool)
  | num (n : Nat)
  | str (s : List Char)
  | arr (elems : List Json)
  | obj (fields : List (List Char × Json))

/-- Value of a key in the field list of a JSON object, first match wins. -/
def lookupField : List (List Char × Json) → List Char → Json
  | [], _ => .null
  | (k, v) :: rest, key => if k = key then v else lookupField rest key

/-- serde_json string indexing: the value of the key in an object, Null for
a missing key or a non-object. -/
def Json.index : Json → List Char → Json
  | .obj fields, key => lookupField fields key
  | _, _ => .null

/-- serde_json usize indexing: the element of an array, Null when out of
bounds or for a non-array. -/
def Json.idx : Json → Nat → Json
  | .arr elems, i => elems.getD i .null
  | _, _ => .null

/-- serde_json as_str. -/
def Json.asStr : Json → Option (List Char)
  | .str s => some s
  | _ => none

/-- serde_json as_bool. -/
def Json.asBool : Json → Option Bool
  | .bool b => some b
  | _ => none

/-- serde_json as_array. -/
def Json.asArr : Json → Option (List Json)
  | .arr elems => some elems
  | _ => none

/-- serde_json as_u64: defined only for numbers representable as u64. -/
def Json.asU64 : Json → Option Nat
  | .num n => if n < 2 ^ 64 then some n else none
  | _ => none

/-- QuickParser::get_value_between from the source: the substring of s
strictly between the first occurrence of val1 and the first occurrence of
val2 after it.  A missing marker collapses to the empty string through
unwrap_or, and an empty result is reported as an error through bail. -/
def get_value_between (s val1 val2 : List Char) : Except Unit (List Char) :=
  let result := ((splitOnce val2 ((splitOnce val1 s).getD ([], [])).2).getD ([], [])).1
  if result.length ≤ 0 then .error () else .ok result

/-- Accept::to_vec from the source: split the header value on commas, trim
each part, keep the part before the first semicolon, then the part before
the first plus sign.  The source applies no case folding. -/
def to_vec (h : List Char) : List (List Char) :=
  (splitOnChar ',' h).map fun v =>
    (splitOnChar '+' ((splitOnChar ';' (trimChars v)).headD [])).headD []

/-- Accept::priority from the source: the first header token that occurs in
the supported list, in header order, or the empty token when none does. -/
def priority (supported : List (List Char)) (h : List Char) : List Char :=
  ((to_vec h).filter fun v => supported.contains v).headD []

def appName : List Char := cs "Tokopedia Client API"

def tokopediaBase : List Char := cs "https://www.tokopedia.com/"

def notFoundSentinel : List Char := cs "product: not found"

/-- How a handler computation ends when it does not produce a value: crash
models a Rust unwrap panic, thrown models an error propagated with the
question mark operator. -/
inductive Fault where
  | crash
  | thrown
deriving DecidableEq

/-- Response body representations produced by the service.  HTML bodies
carry the template name and the placeholder substitutions, since the
template text itself is an external static resource. -/
inductive Body where
  | text (s : List Char)
  | html (template : List Char) (subs : List (List Char × List Char))
  | jsonBody (j : Json)

/-- Final fate of one request: an HTTP response with a status code and a
body, a panic that aborts the serving task, or an error returned from the
service function. -/
inductive Outcome where
  | respond (status : Nat) (body : Body)
  | crashed
  | errEscaped

/-- Request methods, with every method other than GET and HEAD collapsed
into one constructor since the source distinguishes only those two. -/
inductive Method where
  | get
  | head
  | other
deriving DecidableEq

/-- Rust Option::unwrap inside the serving task: a missing value panics. -/
def bindO : Option α → (α → Except Fault β) → Except Fault β
  | none, _ => .error .crash
  | some a, f => f a

/-- Rust question mark on a Result inside the handler: an error aborts the
handler and escapes the service function. -/
def bindE : Except Unit α → (α → Except Fault β) → Except Fault β
  | .error _, _ => .error .thrown
  | .ok a, f => f a

/-- Seller handle derived in the search loop: the shop URL with the fixed
storefront base removed everywhere. -/
def shopUsernameOf (shop_url : List Char) : List Char :=
  replaceAll tokopediaBase [] shop_url

/-- Body of the per-product loop in the search handler: unwrap the shop and
product fields, derive the seller handle from the shop URL and the product
id from the product URL, and build the normalized product object. -/
def searchProduct (product : Json) : Except Fault Json :=
  bindO ((product.index (cs "shop")).index (cs "name")).asStr fun shop_name =>
  bindO ((product.index (cs "shop")).index (cs "url")).asStr fun shop_url =>
  bindO ((product.index (cs "shop")).index (cs "city")).asStr fun shop_city =>
  bindO ((product.index (cs "shop")).index (cs "isOfficial")).asBool fun shop_is_official =>
  bindO ((product.index (cs "shop")).index (cs "isPowerBadge")).asBool fun shop_is_powerbadge =>
  bindO (product.index (cs "name")).asStr fun product_name =>
  bindO (product.index (cs "url")).asStr fun product_url =>
  bindO (product.index (cs "price")).asStr fun product_price =>
  bindO (product.index (cs "imageUrl")).asStr fun product_thumbnail =>
  bindO (product.index (cs "categoryName")).asStr fun product_category =>
  bindE (get_value_between product_url (shopUsernameOf shop_url ++ cs "/") (cs "?")) fun product_id =>
  .ok (.obj [
    (cs "seller", .obj [
      (cs "name", .str shop_name),
      (cs "id", .str (shopUsernameOf shop_url)),
      (cs "url", .str shop_url),
      (cs "city", .str shop_city),
      (cs "isOfficial", .bool shop_is_official),
      (cs "hasPowerBadge", .bool shop_is_powerbadge)]),
    (cs "name", .str product_name),
    (cs "url", .str product_url),
    (cs "price", .str product_price),
    (cs "thumbnail", .str product_thumbnail),
    (cs "category", .str product_category),
    (cs "id", .str product_id)])

/-- The data subtree the search handler walks. -/
def search_data (response : Json) : Json :=
  (((response.idx 0).index (cs "data")).index (cs "ace_search_product_v4")).index (cs "data")

/-- The for-loop of the search handler: transform each product in order,
stopping at the first failure, as the question mark inside the loop does. -/
def searchProducts : List Json → Except Fault (List Json)
  | [] => .ok []
  | p :: ps =>
    match searchProduct p with
    | .error e => .error e
    | .ok r =>
      match searchProducts ps with
      | .error e => .error e
      | .ok rs => .ok (r :: rs)

/-- Search handler downstream of the upstream call: the raw response text
is parsed as JSON (a parse failure propagates out of the handler) and
transformed into the normalized search payload. -/
def searchBranch (raw : List Char) (parse : List Char → Option Json) : Outcome :=
  match parse raw with
  | none => .errEscaped
  | some response =>
    match (((search_data response).index (cs "suggestion")).index (cs "currentKeyword")).asStr with
    | none => .crashed
    | some current_keyword =>
      match (((search_data response).index (cs "suggestion")).index (cs "suggestion")).asStr with
      | none => .crashed
      | some suggestion =>
        match ((search_data response).index (cs "products")).asArr with
        | none => .crashed
        | some products =>
          match searchProducts products with
          | .error .crash => .crashed
          | .error .thrown => .errEscaped
          | .ok result_products =>
            .respond 200 (.jsonBody (.obj [
              (cs "success", .bool true),
              (cs "keyword", .str current_keyword),
              (cs "suggestion", .str suggestion),
              (cs "results", .arr result_products)]))

/-- Mutable state of the component scan in the lookup handler, with the
source defaults title "", description "", price 0, stock "0". -/
structure PdpState where
  title : List Char
  description : List Char
  price : Nat
  stock : List Char

/-- One entry of the product_detail content list: the entry titled
Deskripsi supplies the description, every other entry is ignored. -/
def scanContent (st : PdpState) (content : Json) : Except Fault PdpState :=
  match (content.index (cs "title")).asStr with
  | none => .error .crash
  | some t =>
    if t = cs "Deskripsi" then
      match (content.index (cs "subtitle")).asStr with
      | none => .error .crash
      | some sub => .ok { st with description := sub }
    else .ok st

/-- Inner loop over the content entries of a product_detail component. -/
def foldContents : PdpState → List Json → Except Fault PdpState
  | st, [] => .ok st
  | st, c :: rest =>
    match scanContent st c with
    | .error e => .error e
    | .ok st2 => foldContents st2 rest

/-- One component of the lookup layout: product_content supplies title,
price and stock, product_detail supplies the description, every other
component name is ignored. -/
def scanComponent (st : PdpState) (component : Json) : Except Fault PdpState :=
  match (component.index (cs "name")).asStr with
  | none => .error .crash
  | some component_name =>
    match
      (if component_name = cs "product_content" then
        match (((component.index (cs "data")).idx 0).index (cs "name")).asStr with
        | none => .error .crash
        | some t =>
          match ((((component.index (cs "data")).idx 0).index (cs "price")).index (cs "value")).asU64 with
          | none => .error .crash
          | some pr =>
            match ((((component.index (cs "data")).idx 0).index (cs "stock")).index (cs "value")).asStr with
            | none => .error .crash
            | some stck => .ok { st with title := t, price := pr, stock := stck }
      else .ok st : Except Fault PdpState)
    with
    | .error e => .error e
    | .ok st2 =>
      if component_name = cs "product_detail" then
        match (((component.index (cs "data")).idx 0).index (cs "content")).asArr with
        | none => .error .crash
        | some contents => foldContents st2 contents
      else .ok st2

/-- The component loop of the lookup handler. -/
def foldComponents : PdpState → List Json → Except Fault PdpState
  | st, [] => .ok st
  | st, c :: rest =>
    match scanComponent st c with
    | .error e => .error e
    | .ok st2 => foldComponents st2 rest

/-- The pdpGetLayout subtree the lookup handler walks. -/
def pdpLayout (response : Json) : Json :=
  ((response.idx 0).index (cs "data")).index (cs "pdpGetLayout")

/-- Lookup handler downstream of the upstream call: the raw text is checked
for the not-found sentinel before any parsing; otherwise it is parsed and
walked component by component as in the source. -/
def lookupBranch (raw : List Char) (parse : List Char → Option Json) : Outcome :=
  if containsSub raw notFoundSentinel then
    .respond 200 (.jsonBody (.obj [
      (cs "reason", .str (cs "Product not found")),
      (cs "success", .bool false)]))
  else
    match parse raw with
    | none => .errEscaped
    | some response =>
      match ((pdpLayout response).index (cs "components")).asArr with
      | none => .crashed
      | some components =>
        match (((pdpLayout response).index (cs "basicInfo")).index (cs "shopName")).asStr with
        | none => .crashed
        | some store_name =>
          match (((pdpLayout response).index (cs "basicInfo")).index (cs "url")).asStr with
          | none => .crashed
          | some original_url =>
            match (((pdpLayout response).index (cs "basicInfo")).index (cs "createdAt")).asStr with
            | none => .crashed
            | some created_at =>
              match foldComponents ⟨cs "", cs "", 0, cs "0"⟩ components with
              | .error .crash => .crashed
              | .error .thrown => .errEscaped
              | .ok st =>
                match parseUsize st.stock with
                | none => .errEscaped
                | some stock_num =>
                  .respond 200 (.jsonBody (.obj [
                    (cs "success", .bool true),
                    (cs "title", .str st.title),
                    (cs "description", .str st.description),
                    (cs "price", .num st.price),
                    (cs "stock", .num stock_num),
                    (cs "storeName", .str store_name),
                    (cs "originalUrl", .str original_url),
                    (cs "createdAt", .str created_at)]))

/-- JSON payload of the root info endpoint. -/
def build_json (buildId : List Char) : Json :=
  .obj [(cs "name", .str appName), (cs "build", .str buildId), (cs "success", .bool true)]

/-- Plain-text application description, app_desc in the source. -/
def app_desc (buildId : List Char) : List Char :=
  appName ++ cs " (build " ++ buildId ++ cs ")"

/-- Root info handler: content-negotiated over text/html and
application/json with a plain-text default.  The source binds the priority
call once; it is a pure expression, repeated here in both conditions. -/
def infoBranch (buildId : List Char) (accept : Option (List Char)) : Outcome :=
  match accept with
  | some h =>
    if priority [cs "text/html", cs "application/json"] h = cs "text/html" then
      .respond 200 (.html (cs "version.html") [(cs "$title", appName), (cs "$build", buildId)])
    else if priority [cs "text/html", cs "application/json"] h = cs "application/json" then
      .respond 200 (.jsonBody (build_json buildId))
    else .respond 200 (.text (trimChars (app_desc buildId)))
  | none => .respond 200 (.text (trimChars (app_desc buildId)))

/-- Fallthrough 404 handler: content-negotiated over text/html and
application/json with a plain-text default, always status 404. -/
def notFoundBranch (accept : Option (List Char)) : Outcome :=
  match accept with
  | some h =>
    if priority [cs "text/html", cs "application/json"] h = cs "text/html" then
      .respond 404 (.html (cs "404.html") [(cs "$title", appName)])
    else if priority [cs "text/html", cs "application/json"] h = cs "application/json" then
      .respond 404 (.jsonBody (.obj [(cs "reason", .str (cs "404 Not found")), (cs "success", .bool false)]))
    else .respond 404 (.text (trimChars (cs "404 Not found")))
  | none => .respond 404 (.text (trimChars (cs "404 Not found")))

/-- Path split on slashes with empty segments dropped, as in the source. -/
def splitted_path (path : List Char) : List (List Char) :=
  (splitOnChar '/' path).filter fun v => decide (0 < v.length)

/-- The per-request service function: HEAD short-circuit, the root info
route, the search and lookup routes, and the content-negotiated 404.  The
upstream call is modelled by the raw response text it returns, and the
JSON parser by an explicit parse function. -/
def service (buildId : List Char) (method : Method) (path : List Char)
    (accept : Option (List Char)) (raw : List Char)
    (parse : List Char → Option Json) : Outcome :=
  if method = .head then .respond 200 (.text (trimChars []))
  else if method = .get ∧ path = cs "/" then infoBranch buildId accept
  else
    if 2 ≤ (splitted_path path).length then
      if method = .get ∧ (splitted_path path).length = 2
          ∧ (splitted_path path).headD [] = cs "search" then
        searchBranch raw parse
      else if method = .get ∧ (splitted_path path).length = 3
          ∧ (splitted_path path).headD [] = cs "lookup" then
        lookupBranch raw parse
      else notFoundBranch accept
    else notFoundBranch accept

/-! Fixtures used by the concrete evaluations. -/

/-- Lookup fixture whose basicInfo lacks shopName while the components
array is present and empty. -/
def lookupMissingShopName : Json :=
  .arr [.obj [(cs "data", .obj [(cs "pdpGetLayout", .obj [
    (cs "components", .arr []),
    (cs "basicInfo", .obj [
      (cs "url", .str (cs "https://www.tokopedia.com/shop/item")),
      (cs "createdAt", .str (cs "2023"))])])])]]

/-- Well-formed lookup fixture whose product_content stock value is the
non-numeric string many. -/
def lookupStockMany : Json :=
  .arr [.obj [(cs "data", .obj [(cs "pdpGetLayout", .obj [
    (cs "components", .arr [.obj [
      (cs "name", .str (cs "product_content")),
      (cs "data", .arr [.obj [
        (cs "name", .str (cs "Item")),
        (cs "price", .obj [(cs "value", .num 1000)]),
        (cs "stock", .obj [(cs "value", .str (cs "many"))])]])]]),
    (cs "basicInfo", .obj [
      (cs "shopName", .str (cs "Shop")),
      (cs "url", .str (cs "https://www.tokopedia.com/shop/item")),
      (cs "createdAt", .str (cs "2023"))])])])]]

/-- Lookup fixture with an empty components array and an empty basicInfo
object. -/
def lookupBare : Json :=
  .arr [.obj [(cs "data", .obj [(cs "pdpGetLayout", .obj [
    (cs "components", .arr []),
    (cs "basicInfo", .obj [])])])]]

/-- Lookup fixture whose components hold one ignored component and whose
basicInfo is complete. -/
def lookupNoContent : Json :=
  .arr [.obj [(cs "data", .obj [(cs "pdpGetLayout", .obj [
    (cs "components", .arr [.obj [(cs "name", .str (cs "product_media"))]]),
    (cs "basicInfo", .obj [
      (cs "shopName", .str (cs "Store")),
      (cs "url", .str (cs "https://www.tokopedia.com/store/thing")),
      (cs "createdAt", .str (cs "2020"))])])])]]

/-- First product entry of the search fixture. -/
def fixProd1 : Json :=
  .obj [
    (cs "shop", .obj [
      (cs "name", .str (cs "Shop A")),
      (cs "url", .str (cs "https://www.tokopedia.com/shopA")),
      (cs "city", .str (cs "Jakarta")),
      (cs "isOfficial", .bool true),
      (cs "isPowerBadge", .bool false)]),
    (cs "name", .str (cs "Sneaker A")),
    (cs "url", .str (cs "https://www.tokopedia.com/shopA/111?extra=1")),
    (cs "price", .str (cs "Rp100")),
    (cs "imageUrl", .str (cs "imgA")),
    (cs "categoryName", .str (cs "Shoes"))]

/-- Second product entry of the search fixture. -/
def fixProd2 : Json :=
  .obj [
    (cs "shop", .obj [
      (cs "name", .str (cs "Shop B")),
      (cs "url", .str (cs "https://www.tokopedia.com/shopB")),
      (cs "city", .str (cs "Bandung")),
      (cs "isOfficial", .bool false),
      (cs "isPowerBadge", .bool true)]),
    (cs "name", .str (cs "Sneaker B")),
    (cs "url", .str (cs "https://www.tokopedia.com/shopB/222?x=2")),
    (cs "price", .str (cs "Rp200")),
    (cs "imageUrl", .str (cs "imgB")),
    (cs "categoryName", .str (cs "Shoes"))]

/-- Parsed upstream search response with two product entries. -/
def searchFixture : Json :=
  .arr [.obj [(cs "data", .obj [(cs "ace_search_product_v4", .obj [(cs "data", .obj [
    (cs "suggestion", .obj [
      (cs "currentKeyword", .str (cs "shoes")),
      (cs "suggestion", .str (cs "sepatu"))]),
    (cs "products", .arr [fixProd1, fixProd2])])])])]]

/-- Normalized record the search handler emits for fixProd1. -/
def searchRes1 : Json :=
  .obj [
    (cs "seller", .obj [
      (cs "name", .str (cs "Shop A")),
      (cs "id", .str (cs "shopA")),
      (cs "url", .str (cs "https://www.tokopedia.com/shopA")),
      (cs "city", .str (cs "Jakarta")),
      (cs "isOfficial", .bool true),
      (cs "hasPowerBadge", .bool false)]),
    (cs "name", .str (cs "Sneaker A")),
    (cs "url", .str (cs "https://www.tokopedia.com/shopA/111?extra=1")),
    (cs "price", .str (cs "Rp100")),
    (cs "thumbnail", .str (cs "imgA")),
    (cs "category", .str (cs "Shoes")),
    (cs "id", .str (cs "111"))]

/-- Normalized record the search handler emits for fixProd2. -/
def searchRes2 : Json :=
  .obj [
    (cs "seller", .obj [
      (cs "name", .str (cs "Shop B")),
      (cs "id", .str (cs "shopB")),
      (cs "url", .str (cs "https://www.tokopedia.com/shopB")),
      (cs "city", .str (cs "Bandung")),
      (cs "isOfficial", .bool false),
      (cs "hasPowerBadge", .bool true)]),
    (cs "name", .str (cs "Sneaker B")),
    (cs "url", .str (cs "https://www.tokopedia.com/shopB/222?x=2")),
    (cs "price", .str (cs "Rp200")),
    (cs "thumbnail", .str (cs "imgB")),
    (cs "category", .str (cs "Shoes")),
    (cs "id", .str (cs "222"))]

/-- Full response body of the search handler on the search fixture. -/
def searchExpected : Json :=
  .obj [
    (cs "success", .bool true),
    (cs "keyword", .str (cs "shoes")),
    (cs "suggestion", .str (cs "sepatu")),
    (cs "results", .arr [searchRes1, searchRes2])]

/-! Claim theorems for the routing and error-outcome claims. -/

/-- Claim C9: every HEAD request, on any path, gets an empty 200 response
before any content negotiation, routing, or upstream interaction: the
outcome does not depend on the path, the Accept header, the upstream
response text, or the parser. -/
theorem c9_head_short_circuit (bid path : List Char) (accept : Option (List Char))
    (raw : List Char) (parse : List Char → Option Json) :
    service bid .head path accept raw parse = .respond 200 (.text []) := rfl

/-- Claim C1, evaluated against the code: on a lookup whose upstream JSON
lacks basicInfo.shopName the handler panics (aborting the serving task),
and on a lookup whose stock.value is the string many the parse error
escapes the service function; neither produces a classified failure
response as the claim requires. -/
theorem c1_unhandled_faults :
    service (cs "b") .get (cs "/lookup/shop/item") none (cs "upstream")
      (fun _ => some lookupMissingShopName) = .crashed
    ∧ service (cs "b") .get (cs "/lookup/shop/item") none (cs "upstream")
      (fun _ => some lookupStockMany) = .errEscaped := ⟨rfl, rfl⟩

/-- Claim C2: whenever the raw upstream response text of a lookup request
contains the sentinel substring, the handler answers status 200 with the
business not-found JSON payload, independently of the JSON parser, which
is never consulted. -/
theorem c2_sentinel_short_circuit (bid : List Char) (path : List Char)
    (accept : Option (List Char)) (raw : List Char) (parse : List Char → Option Json)
    (hs : containsSub raw notFoundSentinel = true)
    (hlen : (splitted_path path).length = 3)
    (hhd : (splitted_path path).headD [] = cs "lookup") :
    service bid .get path accept raw parse
      = .respond 200 (.jsonBody (.obj [(cs "reason", .str (cs "Product not found")),
          (cs "success", .bool false)])) := by
  have hhead : ¬(Method.get = Method.head) := by decide
  have hroot : ¬(Method.get = Method.get ∧ path = cs "/") := by
    rintro ⟨-, hp⟩
    rw [hp] at hlen
    simp [splitted_path, splitOnChar] at hlen
  unfold service
  rw [if_neg hhead, if_neg hroot, if_pos (by omega : 2 ≤ (splitted_path path).length),
    if_neg (by rintro ⟨-, h2, -⟩; omega), if_pos ⟨rfl, hlen, hhd⟩]
  unfold lookupBranch
  rw [if_pos hs]

/-- Witness for claim C2 at a concrete sentinel-bearing upstream response,
with a parser that never succeeds, showing no parsing is involved. -/
theorem c2_sentinel_short_circuit_witness :
    service (cs "b") .get (cs "/lookup/doesnotexist/doesnotexist") none
      (cs "oops product: not found oops") (fun _ => none)
      = .respond 200 (.jsonBody (.obj [(cs "reason", .str (cs "Product not found")),
          (cs "success", .bool false)])) :=
  c2_sentinel_short_circuit (cs "b") (cs "/lookup/doesnotexist/doesnotexist") none
    (cs "oops product: not found oops") (fun _ => none) (by decide) (by decide) (by decide)

/-- Claim C8: every non-HEAD request matching none of the three routes gets
status 404, and with no Accept header (or with no supported token in it)
the body is exactly the plain text 404 Not found. -/
theorem c8_not_found (bid : List Char) (method : Method) (path : List Char)
    (accept : Option (List Char)) (raw : List Char) (parse : List Char → Option Json)
    (hHead : method ≠ .head)
    (hRoot : ¬(method = .get ∧ path = cs "/"))
    (hSearch : ¬(method = .get ∧ (splitted_path path).length = 2
      ∧ (splitted_path path).headD [] = cs "search"))
    (hLookup : ¬(method = .get ∧ (splitted_path path).length = 3
      ∧ (splitted_path path).headD [] = cs "lookup")) :
    (∃ b, service bid method path accept raw parse = .respond 404 b)
    ∧ (accept = none →
        service bid method path accept raw parse = .respond 404 (.text (cs "404 Not found")))
    ∧ (∀ h2, accept = some h2 →
        priority [cs "text/html", cs "application/json"] h2 ≠ cs "text/html" →
        priority [cs "text/html", cs "application/json"] h2 ≠ cs "application/json" →
        service bid method path accept raw parse = .respond 404 (.text (cs "404 Not found"))) := by
  have hserv : service bid method path accept raw parse = notFoundBranch accept := by
    unfold service
    rw [if_neg hHead, if_neg hRoot]
    by_cases hlen : 2 ≤ (splitted_path path).length
    · rw [if_pos hlen, if_neg hSearch, if_neg hLookup]
    · rw [if_neg hlen]
  rw [hserv]
  cases accept with
  | none =>
    exact ⟨⟨_, rfl⟩, fun _ => rfl, fun h2 hh => nomatch hh⟩
  | some h =>
    refine ⟨?_, ?_, ?_⟩
    · simp only [notFoundBranch]
      by_cases h1 : priority [cs "text/html", cs "application/json"] h = cs "text/html"
      · exact ⟨_, by rw [if_pos h1]⟩
      · by_cases h2 : priority [cs "text/html", cs "application/json"] h = cs "application/json"
        · exact ⟨_, by rw [if_neg h1, if_pos h2]⟩
        · exact ⟨_, by rw [if_neg h1, if_neg h2]⟩
    · exact fun hh => nomatch hh
    · intro h2 hh hn1 hn2
      cases hh
      simp only [notFoundBranch]
      rw [if_neg hn1, if_neg hn2]
      rfl

/-- Witness for claim C8: a GET of an unknown two-segment path with no
Accept header is answered 404 with the exact plain-text body. -/
theorem c8_not_found_witness :
    service (cs "b") .get (cs "/unknown/thing") none (cs "") (fun _ => none)
      = .respond 404 (.text (cs "404 Not found")) :=
  (c8_not_found (cs "b") .get (cs "/unknown/thing") none (cs "") (fun _ => none)
    (by decide) (by decide) (by decide) (by decide)).2.1 rfl

/-- Counterexample to claim C5 as stated: a lookup whose parsed upstream
components array is present and empty (so it certainly contains no
product_content element) but whose basicInfo is an empty object makes the
handler panic instead of returning a success response with zero-value
defaults. -/
theorem c5_counterexample :
    ((pdpLayout lookupBare).index (cs "components")).asArr = some []
    ∧ lookupBranch (cs "bare") (fun _ => some lookupBare) = .crashed := ⟨rfl, rfl⟩

/-! Claim C6: the marker-extraction utility against its specification. -/

/-- Modelled from the spec wording: the substring of s strictly between the
first occurrence of m1 and the first occurrence of m2 after it, undefined
when either occurrence does not exist. -/
def between_spec (s m1 m2 : List Char) : Option (List Char) :=
  match firstOccIdx m1 s with
  | none => none
  | some i =>
    match firstOccIdx m2 (s.drop (i + m1.length)) with
    | none => none
    | some j => some ((s.drop (i + m1.length)).take j)

/-- split_once agrees with the first-occurrence index: it splits the input
at that index when it exists. -/
theorem splitOnce_eq_firstOcc (pat : List Char) :
    ∀ s : List Char, splitOnce pat s
      = (firstOccIdx pat s).map fun i => (s.take i, s.drop (i + pat.length)) := by
  intro s
  induction s with
  | nil =>
    by_cases h : pat.isPrefixOf ([] : List Char)
    · simp [splitOnce, firstOccIdx, h]
    · simp [splitOnce, firstOccIdx, h]
  | cons c rest ih =>
    by_cases h : pat.isPrefixOf (c :: rest)
    · simp [splitOnce, firstOccIdx, h]
    · simp only [splitOnce, firstOccIdx, h, if_neg, ih]
      cases firstOccIdx pat rest with
      | none => simp
      | some i => simp [Nat.succ_add, List.take_succ_cons, List.drop_succ_cons]

/-- Claim C6: get_value_between returns exactly the substring strictly
between the first occurrence of the first marker and the first occurrence
of the second marker after it, and errors exactly when such an occurrence
is missing or the extracted substring is empty. -/
theorem c6_get_value_between_spec (s m1 m2 : List Char) :
    get_value_between s m1 m2 =
      match between_spec s m1 m2 with
      | none => .error ()
      | some r => if r = [] then .error () else .ok r := by
  unfold get_value_between between_spec
  rw [splitOnce_eq_firstOcc m1 s]
  cases h1 : firstOccIdx m1 s with
  | none =>
    simp only [Option.map_none', Option.getD_none]
    rw [splitOnce_eq_firstOcc m2 ([] : List Char)]
    cases h2 : firstOccIdx m2 ([] : List Char) with
    | none => simp
    | some j => simp
  | some i =>
    simp only [Option.map_some', Option.getD_some]
    rw [splitOnce_eq_firstOcc m2 (s.drop (i + m1.length))]
    cases h2 : firstOccIdx m2 (s.drop (i + m1.length)) with
    | none => simp
    | some j =>
      simp only [Option.map_some', Option.getD_some]
      by_cases hr : (s.drop (i + m1.length)).take j = []
      · simp [hr]
      · simp only [hr, if_false, List.length_take, List.length_drop]
        have hneg : ¬ j ⊓ (s.length - (i + m1.length)) ≤ 0 := by
          intro hle
          apply hr
          have hj0 : min j (s.length - (i + m1.length)) = 0 := Nat.le_zero.mp hle
          rcases Nat.min_eq_zero_iff.mp hj0 with hj | hl
          · subst hj; simp
          · have hdrop : List.drop (i + m1.length) s = [] :=
              List.length_eq_zero.mp (by rw [List.length_drop]; exact hl)
            rw [hdrop, List.take_nil]
        rw [if_neg hneg]

/-! Claim C7: Accept header tokenization. -/

/-- splitOnChar never yields an empty chunk list. -/
theorem splitOnChar_ne_nil (sep : Char) : ∀ s : List Char, splitOnChar sep s ≠ [] := by
  intro s
  cases s with
  | nil => simp [splitOnChar]
  | cons c rest =>
    by_cases h : c = sep
    · simp [splitOnChar, h]
    · simp only [splitOnChar, h, if_false]
      cases splitOnChar sep rest <;> simp

/-- The chunk before the first separator is the longest separator-free
prefix. -/
theorem splitOnChar_headD (sep : Char) :
    ∀ s : List Char, (splitOnChar sep s).headD [] = s.takeWhile fun c => c != sep := by
  intro s
  induction s with
  | nil => rfl
  | cons c rest ih =>
    by_cases h : c = sep
    · simp [splitOnChar, h, List.takeWhile]
    · simp only [splitOnChar, h, if_false]
      cases hsp : splitOnChar sep rest with
      | nil => exact absurd hsp (splitOnChar_ne_nil sep rest)
      | cons t ts =>
        rw [hsp] at ih
        simp only [List.headD] at ih ⊢
        have hb : (c != sep) = true := bne_iff_ne.mpr h
        simp [List.takeWhile, h, ih, hb]

/-- Modelled from the claim wording for C7: split on commas, trim, strip
from the first semicolon onward, strip from the first plus sign onward,
and lowercase the result. -/
def to_vec_spec (h : List Char) : List (List Char) :=
  (splitOnChar ',' h).map fun v =>
    (((trimChars v).takeWhile fun c => c != ';').takeWhile fun c => c != '+').map Char.toLower

/-- Counterexample to claim C7 as stated: on the header value TEXT/HTML the
source tokenizer keeps the token unchanged while the claimed pipeline
lowercases it, so the two disagree. -/
theorem c7_counterexample :
    to_vec (cs "TEXT/HTML") = [cs "TEXT/HTML"]
    ∧ to_vec_spec (cs "TEXT/HTML") = [cs "text/html"]
    ∧ to_vec (cs "TEXT/HTML") ≠ to_vec_spec (cs "TEXT/HTML") := by
  refine ⟨rfl, ?_, ?_⟩ <;> decide

/-- Claim C7 as amended: every token of the derived preference list is
obtained by splitting the header on commas, trimming whitespace, stripping
everything from the first semicolon onward and everything from the first
plus sign onward, with no lowercasing. -/
theorem c7_tokenization_amended (h : List Char) :
    to_vec h = (splitOnChar ',' h).map fun v =>
      ((trimChars v).takeWhile fun c => c != ';').takeWhile fun c => c != '+' := by
  unfold to_vec
  refine List.map_congr_left fun v _ => ?_
  rw [splitOnChar_headD, splitOnChar_headD]

/-! Claim C4: the negotiated representation on the info and 404 routes. -/

/-- Representation kinds the info and 404 endpoints can produce. -/
inductive ReprKind where
  | htmlR
  | jsonR
  | plainR
deriving DecidableEq

/-- Representation kind of an outcome, read off its body. -/
def reprKindOf : Outcome → ReprKind
  | .respond _ (.html _ _) => .htmlR
  | .respond _ (.jsonBody _) => .jsonR
  | _ => .plainR

/-- The supported set of the info and 404 endpoints. -/
def supportedPair : List (List Char) := [cs "text/html", cs "application/json"]

/-- Modelled from the spec wording of negotiation: the first header token,
in client order, that lies in the supported set; the plain default when
the header is absent or no token survives the filter. -/
def negotiated_spec (accept : Option (List Char)) : ReprKind :=
  match accept with
  | none => .plainR
  | some h =>
    match ((to_vec h).filter fun v => decide (v ∈ supportedPair)).head? with
    | none => .plainR
    | some t => if t = cs "text/html" then .htmlR else .jsonR

/-- The priority call of the source filters by the same predicate as the
membership filter of the spec-side chooser. -/
theorem priority_pair (h : List Char) :
    priority [cs "text/html", cs "application/json"] h
      = ((to_vec h).filter fun v => decide (v ∈ supportedPair)).headD [] := by
  unfold priority
  congr 1
  refine List.filter_congr fun v _ => ?_
  by_cases h1 : v = cs "text/html"
  · subst h1; decide
  · by_cases h2 : v = cs "application/json"
    · subst h2; decide
    · have hb1 : (v == cs "text/html") = false := beq_eq_false_iff_ne.mpr h1
      have hb2 : (v == cs "application/json") = false := beq_eq_false_iff_ne.mpr h2
      simp [supportedPair, List.contains, List.elem, h1, h2, hb1, hb2]

/-- Both negotiated endpoints choose exactly the representation named by
the spec-side chooser. -/
theorem c4_core (bid : List Char) (accept : Option (List Char)) :
    reprKindOf (infoBranch bid accept) = negotiated_spec accept
    ∧ reprKindOf (notFoundBranch accept) = negotiated_spec accept := by
  cases accept with
  | none => exact ⟨rfl, rfl⟩
  | some h =>
    have hpr := priority_pair h
    cases hL : (to_vec h).filter (fun v => decide (v ∈ supportedPair)) with
    | nil =>
      have hp : priority [cs "text/html", cs "application/json"] h = [] := by
        rw [hpr, hL]; rfl
      have hne1 : ¬(([] : List Char) = cs "text/html") := by decide
      have hne2 : ¬(([] : List Char) = cs "application/json") := by decide
      constructor
      · simp only [infoBranch, hp]
        rw [if_neg hne1, if_neg hne2]
        simp [negotiated_spec, hL, reprKindOf]
      · simp only [notFoundBranch, hp]
        rw [if_neg hne1, if_neg hne2]
        simp [negotiated_spec, hL, reprKindOf]
    | cons t ts =>
      have hp : priority [cs "text/html", cs "application/json"] h = t := by
        rw [hpr, hL]; rfl
      have ht : t ∈ supportedPair := by
        have hmem : t ∈ (to_vec h).filter (fun v => decide (v ∈ supportedPair)) := by
          rw [hL]; exact List.mem_cons_self t ts
        exact of_decide_eq_true (List.mem_filter.mp hmem).2
      have ht2 : t = cs "text/html" ∨ t = cs "application/json" := by
        simpa [supportedPair] using ht
      rcases ht2 with h1 | h1
      · constructor
        · simp only [infoBranch, hp, h1]
          simp [negotiated_spec, hL, reprKindOf, h1]
        · simp only [notFoundBranch, hp, h1]
          simp [negotiated_spec, hL, reprKindOf, h1]
      · have hne : ¬(cs "application/json" = cs "text/html") := by decide
        constructor
        · simp only [infoBranch, hp, h1]
          simp [negotiated_spec, hL, reprKindOf, h1, hne]
        · simp only [notFoundBranch, hp, h1]
          simp [negotiated_spec, hL, reprKindOf, h1, hne]

/-- Claim C4: on the info and 404 endpoints the chosen representation is
the first token of the Accept header, in client order, that lies in the
supported set, with quality parameters ignored; a header listing
application/json first yields JSON, the reversed order yields HTML, and a
header with no supported token, or no header, yields the plain default. -/
theorem c4_representation_choice :
    (∀ bid accept, reprKindOf (infoBranch bid accept) = negotiated_spec accept
        ∧ reprKindOf (notFoundBranch accept) = negotiated_spec accept)
    ∧ negotiated_spec (some (cs "application/json, text/html")) = .jsonR
    ∧ negotiated_spec (some (cs "text/html, application/json")) = .htmlR
    ∧ negotiated_spec (some (cs "text/plain")) = .plainR
    ∧ negotiated_spec none = .plainR :=
  ⟨c4_core, by decide, by decide, by decide, rfl⟩

/-! Claims C3 and C10: the search transformation. -/

/-- All scalar fields the search loop unwraps are present with the
expected kinds, with the given shop and product URLs. -/
def productFieldsOk (p : Json) (shop_url product_url : List Char) : Prop :=
  (∃ v, ((p.index (cs "shop")).index (cs "name")).asStr = some v)
  ∧ ((p.index (cs "shop")).index (cs "url")).asStr = some shop_url
  ∧ (∃ v, ((p.index (cs "shop")).index (cs "city")).asStr = some v)
  ∧ (∃ v, ((p.index (cs "shop")).index (cs "isOfficial")).asBool = some v)
  ∧ (∃ v, ((p.index (cs "shop")).index (cs "isPowerBadge")).asBool = some v)
  ∧ (∃ v, (p.index (cs "name")).asStr = some v)
  ∧ (p.index (cs "url")).asStr = some product_url
  ∧ (∃ v, (p.index (cs "price")).asStr = some v)
  ∧ (∃ v, (p.index (cs "imageUrl")).asStr = some v)
  ∧ (∃ v, (p.index (cs "categoryName")).asStr = some v)

/-- Forward evaluation of the per-product loop body on a well-formed
product whose id extraction succeeds. -/
theorem searchProduct_eval {p : Json} {shop_url product_url pid : List Char}
    (hf : productFieldsOk p shop_url product_url)
    (hid : get_value_between product_url (shopUsernameOf shop_url ++ cs "/") (cs "?") = .ok pid) :
    ∃ r, searchProduct p = .ok r
      ∧ r.index (cs "id") = .str pid
      ∧ (r.index (cs "seller")).index (cs "id") = .str (shopUsernameOf shop_url) := by
  obtain ⟨⟨sn, h1⟩, h2, ⟨sc, h3⟩, ⟨ob, h4⟩, ⟨pb, h5⟩, ⟨pn, h6⟩, h7, ⟨pp, h8⟩, ⟨pt, h9⟩, ⟨pc, h10⟩⟩ := hf
  have hs : searchProduct p = .ok (.obj [
      (cs "seller", .obj [
        (cs "name", .str sn),
        (cs "id", .str (shopUsernameOf shop_url)),
        (cs "url", .str shop_url),
        (cs "city", .str sc),
        (cs "isOfficial", .bool ob),
        (cs "hasPowerBadge", .bool pb)]),
      (cs "name", .str pn),
      (cs "url", .str product_url),
      (cs "price", .str pp),
      (cs "thumbnail", .str pt),
      (cs "category", .str pc),
      (cs "id", .str pid)]) := by
    simp only [searchProduct, h1, h2, h3, h4, h5, h6, h7, h8, h9, h10, hid, bindO, bindE]
  exact ⟨_, hs, rfl, rfl⟩

/-- On a well-formed product whose id extraction fails, the loop body
fails the whole request through the question mark operator. -/
theorem searchProduct_abort {p : Json} {shop_url product_url : List Char}
    (hf : productFieldsOk p shop_url product_url)
    (hid : get_value_between product_url (shopUsernameOf shop_url ++ cs "/") (cs "?") = .error ()) :
    searchProduct p = .error .thrown := by
  obtain ⟨⟨sn, h1⟩, h2, ⟨sc, h3⟩, ⟨ob, h4⟩, ⟨pb, h5⟩, ⟨pn, h6⟩, h7, ⟨pp, h8⟩, ⟨pt, h9⟩, ⟨pc, h10⟩⟩ := hf
  simp only [searchProduct, h1, h2, h3, h4, h5, h6, h7, h8, h9, h10, hid, bindO, bindE]

/-- When the product loop succeeds, every product was transformed. -/
theorem searchProducts_ok_forall :
    ∀ {ps : List Json} {rs : List Json}, searchProducts ps = .ok rs →
      ∀ p ∈ ps, ∃ r, searchProduct p = .ok r := by
  intro ps
  induction ps with
  | nil => intro rs _ p hp; exact absurd hp (List.not_mem_nil p)
  | cons q qs ih =>
    intro rs hok p hp
    unfold searchProducts at hok
    cases hq : searchProduct q with
    | error e => rw [hq] at hok; exact Except.noConfusion hok
    | ok r =>
      rw [hq] at hok
      cases hqs : searchProducts qs with
      | error e => rw [hqs] at hok; exact Except.noConfusion hok
      | ok rs2 =>
        rcases List.mem_cons.mp hp with hh | hh
        · exact ⟨r, hh ▸ hq⟩
        · exact ih hqs p hh

/-- A search response is only produced when parsing succeeded and every
product of the upstream products array was transformed successfully, so a
failing product yields no response at all. -/
theorem searchBranch_respond_inv {raw : List Char} {parse : List Char → Option Json}
    {s : Nat} {b : Body} (h : searchBranch raw parse = .respond s b) :
    ∃ response products, parse raw = some response
      ∧ ((search_data response).index (cs "products")).asArr = some products
      ∧ ∀ p ∈ products, ∃ r, searchProduct p = .ok r := by
  unfold searchBranch at h
  cases hp : parse raw with
  | none => rw [hp] at h; exact Outcome.noConfusion h
  | some response =>
    simp only [hp] at h
    cases h1 : (((search_data response).index (cs "suggestion")).index (cs "currentKeyword")).asStr with
    | none => simp only [h1] at h; exact Outcome.noConfusion h
    | some ck =>
      simp only [h1] at h
      cases h2 : (((search_data response).index (cs "suggestion")).index (cs "suggestion")).asStr with
      | none => simp only [h2] at h; exact Outcome.noConfusion h
      | some sg =>
        simp only [h2] at h
        cases h3 : ((search_data response).index (cs "products")).asArr with
        | none => simp only [h3] at h; exact Outcome.noConfusion h
        | some products =>
          simp only [h3] at h
          cases h4 : searchProducts products with
          | error e =>
            simp only [h4] at h
            cases e
            · exact Outcome.noConfusion h
            · exact Outcome.noConfusion h
          | ok rs => exact ⟨response, products, rfl, h3, searchProducts_ok_forall h4⟩

/-- Claim C3: each emitted product id is the substring of the product URL
strictly between the seller-handle marker and the question mark; a failing
or empty extraction aborts the loop body, and a search response exists
only when every product was transformed, so no partial results are ever
emitted; on the two-product fixture the handler emits two results with
ids 111 and 222. -/
theorem c3_product_id_extraction :
    (service (cs "bld") .get (cs "/search/shoes") none (cs "fixture")
        (fun _ => some searchFixture) = .respond 200 (.jsonBody searchExpected)
      ∧ (searchExpected.index (cs "results")).asArr = some [searchRes1, searchRes2]
      ∧ searchRes1.index (cs "id") = .str (cs "111")
      ∧ searchRes2.index (cs "id") = .str (cs "222"))
    ∧ (∀ p shop_url product_url pid, productFieldsOk p shop_url product_url →
        get_value_between product_url (shopUsernameOf shop_url ++ cs "/") (cs "?") = .ok pid →
        ∃ r, searchProduct p = .ok r ∧ r.index (cs "id") = .str pid)
    ∧ (∀ p shop_url product_url, productFieldsOk p shop_url product_url →
        get_value_between product_url (shopUsernameOf shop_url ++ cs "/") (cs "?") = .error () →
        searchProduct p = .error .thrown)
    ∧ (∀ raw parse s b, searchBranch raw parse = .respond s b →
        ∃ response products, parse raw = some response
          ∧ ((search_data response).index (cs "products")).asArr = some products
          ∧ ∀ p ∈ products, ∃ r, searchProduct p = .ok r) :=
  ⟨⟨rfl, rfl, rfl, rfl⟩,
   fun _ _ _ _ hf hid => (searchProduct_eval hf hid).imp fun _ hr => ⟨hr.1, hr.2.1⟩,
   fun _ _ _ hf hid => searchProduct_abort hf hid,
   fun _ _ _ _ h => searchBranch_respond_inv h⟩

/-- Witness for claim C3: the first fixture product has all fields, its
extraction yields 111, and a concrete search response implies every
fixture product was transformed. -/
theorem c3_product_id_extraction_witness :
    (∃ r, searchProduct fixProd1 = .ok r ∧ r.index (cs "id") = .str (cs "111"))
    ∧ (∃ response products, (fun _ => some searchFixture) (cs "fixture") = some response
        ∧ ((search_data response).index (cs "products")).asArr = some products
        ∧ ∀ p ∈ products, ∃ r, searchProduct p = .ok r) :=
  ⟨c3_product_id_extraction.2.1 fixProd1 (cs "https://www.tokopedia.com/shopA")
      (cs "https://www.tokopedia.com/shopA/111?extra=1") (cs "111")
      ⟨⟨_, rfl⟩, rfl, ⟨_, rfl⟩, ⟨_, rfl⟩, ⟨_, rfl⟩, ⟨_, rfl⟩, rfl, ⟨_, rfl⟩, ⟨_, rfl⟩, ⟨_, rfl⟩⟩ rfl,
   c3_product_id_extraction.2.2.2 (cs "fixture") (fun _ => some searchFixture) 200
      (.jsonBody searchExpected) rfl⟩

/-- On the fuel calls made by replaceAll, a pattern with no occurrence
leaves the input unchanged. -/
theorem replaceAllFuel_no_occ (pat rep : List Char) :
    ∀ fuel s, splitOnce pat s = none → replaceAllFuel pat rep fuel s = s := by
  intro fuel
  induction fuel with
  | zero => intro s h; cases s <;> rfl
  | succ n ih =>
    intro s h
    cases s with
    | nil => rfl
    | cons c rest =>
      have hnp : ¬ pat.isPrefixOf (c :: rest) := by
        intro hp
        simp [splitOnce, hp] at h
      have hrest : splitOnce pat rest = none := by
        simp only [splitOnce, hnp, if_false] at h
        exact Option.map_eq_none.mp h
      have hcond : ¬(pat.isPrefixOf (c :: rest) ∧ pat ≠ []) := fun hc => hnp hc.1
      simp only [replaceAllFuel, hcond, if_false]
      rw [ih rest hrest]

/-- A shop URL not containing the storefront base is left unchanged by the
seller-handle derivation. -/
theorem shopUsernameOf_no_occ (u : List Char)
    (h : containsSub u tokopediaBase = false) : shopUsernameOf u = u := by
  unfold shopUsernameOf replaceAll
  apply replaceAllFuel_no_occ
  cases hsp : splitOnce tokopediaBase u with
  | none => rfl
  | some p => rw [containsSub, hsp] at h; exact Bool.noConfusion h

/-- Claim C10: the seller id of every emitted search record is the shop
URL with every occurrence of the storefront base removed (shown on a URL
with a leading and a non-leading occurrence), and a URL without any
occurrence passes through unchanged with no error. -/
theorem c10_seller_id :
    (∀ p shop_url product_url pid, productFieldsOk p shop_url product_url →
        get_value_between product_url (shopUsernameOf shop_url ++ cs "/") (cs "?") = .ok pid →
        ∃ r, searchProduct p = .ok r
          ∧ (r.index (cs "seller")).index (cs "id") = .str (shopUsernameOf shop_url))
    ∧ (∀ u, containsSub u tokopediaBase = false → shopUsernameOf u = u)
    ∧ shopUsernameOf (cs "xhttps://www.tokopedia.com/yhttps://www.tokopedia.com/z") = cs "xyz" := by
  refine ⟨?_, shopUsernameOf_no_occ, rfl⟩
  intro p su pu pid hf hid
  obtain ⟨r, hr, -, hsid⟩ := searchProduct_eval hf hid
  exact ⟨r, hr, hsid⟩

/-- Witness for claim C10: the second fixture product yields a record
whose seller id is the stripped shop URL, and a URL without the base is
unchanged. -/
theorem c10_seller_id_witness :
    (∃ r, searchProduct fixProd2 = .ok r
      ∧ (r.index (cs "seller")).index (cs "id")
          = .str (shopUsernameOf (cs "https://www.tokopedia.com/shopB")))
    ∧ shopUsernameOf (cs "plain-shop") = cs "plain-shop" :=
  ⟨c10_seller_id.1 fixProd2 (cs "https://www.tokopedia.com/shopB")
      (cs "https://www.tokopedia.com/shopB/222?x=2") (cs "222")
      ⟨⟨_, rfl⟩, rfl, ⟨_, rfl⟩, ⟨_, rfl⟩, ⟨_, rfl⟩, ⟨_, rfl⟩, rfl, ⟨_, rfl⟩, ⟨_, rfl⟩, ⟨_, rfl⟩⟩ rfl,
   c10_seller_id.2.1 (cs "plain-shop") (by decide)⟩

/-! Claim C5: zero-value defaults when product_content never appears. -/

/-- One entry of a product_detail content list is well formed: its title
is a string, and the Deskripsi entry also carries a string subtitle. -/
def contentOk (e : Json) : Prop :=
  ∃ t, (e.index (cs "title")).asStr = some t
    ∧ (t = cs "Deskripsi" → ∃ sub, (e.index (cs "subtitle")).asStr = some sub)

/-- A component is well formed, is not product_content, and when it is
product_detail its content list is well formed. -/
def componentOk (c : Json) : Prop :=
  ∃ nm, (c.index (cs "name")).asStr = some nm
    ∧ nm ≠ cs "product_content"
    ∧ (nm = cs "product_detail" →
        ∃ contents, (((c.index (cs "data")).idx 0).index (cs "content")).asArr = some contents
          ∧ ∀ e ∈ contents, contentOk e)

/-- The product_detail inner loop only ever touches the description. -/
theorem foldContents_preserves :
    ∀ (contents : List Json) (st : PdpState), (∀ e ∈ contents, contentOk e) →
      ∃ st2, foldContents st contents = .ok st2
        ∧ st2.title = st.title ∧ st2.price = st.price ∧ st2.stock = st.stock := by
  intro contents
  induction contents with
  | nil => exact fun st _ => ⟨st, rfl, rfl, rfl, rfl⟩
  | cons e rest ih =>
    intro st hall
    obtain ⟨t, ht, hsub⟩ := hall e (List.mem_cons_self e rest)
    by_cases hd : t = cs "Deskripsi"
    · obtain ⟨sub, hs2⟩ := hsub hd
      have h1 : scanContent st e = .ok { st with description := sub } := by
        simp [scanContent, ht, hd, hs2]
      obtain ⟨st2, h2, hT, hP, hS⟩ := ih { st with description := sub }
        (fun x hx => hall x (List.mem_cons_of_mem e hx))
      exact ⟨st2, by simp [foldContents, h1, h2], by simpa using hT, by simpa using hP,
        by simpa using hS⟩
    · have h1 : scanContent st e = .ok st := by
        simp [scanContent, ht, hd]
      obtain ⟨st2, h2, hT, hP, hS⟩ := ih st (fun x hx => hall x (List.mem_cons_of_mem e hx))
      exact ⟨st2, by simp [foldContents, h1, h2], hT, hP, hS⟩

/-- A well-formed non-product_content component leaves title, price and
stock unchanged. -/
theorem scanComponent_preserves {c : Json} (st : PdpState) (hc : componentOk c) :
    ∃ st2, scanComponent st c = .ok st2
      ∧ st2.title = st.title ∧ st2.price = st.price ∧ st2.stock = st.stock := by
  obtain ⟨nm, hnm, hnpc, hdet⟩ := hc
  by_cases hpd : nm = cs "product_detail"
  · obtain ⟨contents, hcont, hall⟩ := hdet hpd
    obtain ⟨st2, h2, hT, hP, hS⟩ := foldContents_preserves contents st hall
    refine ⟨st2, ?_, hT, hP, hS⟩
    have hne : ¬(cs "product_detail" = cs "product_content") := by decide
    simp [scanComponent, hnm, hnpc, hpd, hcont, h2, hne]
  · refine ⟨st, ?_, rfl, rfl, rfl⟩
    simp [scanComponent, hnm, hnpc, hpd]

/-- The component loop leaves title, price and stock at their values when
every component is well formed and none is product_content. -/
theorem foldComponents_preserves :
    ∀ (components : List Json) (st : PdpState), (∀ c ∈ components, componentOk c) →
      ∃ st2, foldComponents st components = .ok st2
        ∧ st2.title = st.title ∧ st2.price = st.price ∧ st2.stock = st.stock := by
  intro components
  induction components with
  | nil => exact fun st _ => ⟨st, rfl, rfl, rfl, rfl⟩
  | cons c rest ih =>
    intro st hall
    obtain ⟨st1, h1, hT1, hP1, hS1⟩ := scanComponent_preserves st
      (hall c (List.mem_cons_self c rest))
    obtain ⟨st2, h2, hT2, hP2, hS2⟩ := ih st1 (fun x hx => hall x (List.mem_cons_of_mem c hx))
    exact ⟨st2, by simp [foldComponents, h1, h2], hT2.trans hT1, hP2.trans hP1, hS2.trans hS1⟩

/-- Claim C5 as amended: a lookup whose upstream response is otherwise
well formed and whose components array contains no product_content
element succeeds with the zero-value defaults: empty title, price 0 and
stock 0. -/
theorem c5_defaults_when_no_product_content
    (raw : List Char) (parse : List Char → Option Json) (response : Json)
    (components : List Json) (store_name original_url created_at : List Char)
    (hn : containsSub raw notFoundSentinel = false)
    (hp : parse raw = some response)
    (hc : ((pdpLayout response).index (cs "components")).asArr = some components)
    (hsn : (((pdpLayout response).index (cs "basicInfo")).index (cs "shopName")).asStr = some store_name)
    (hu : (((pdpLayout response).index (cs "basicInfo")).index (cs "url")).asStr = some original_url)
    (hcr : (((pdpLayout response).index (cs "basicInfo")).index (cs "createdAt")).asStr = some created_at)
    (hall : ∀ c ∈ components, componentOk c) :
    ∃ desc, lookupBranch raw parse = .respond 200 (.jsonBody (.obj [
      (cs "success", .bool true),
      (cs "title", .str (cs "")),
      (cs "description", .str desc),
      (cs "price", .num 0),
      (cs "stock", .num 0),
      (cs "storeName", .str store_name),
      (cs "originalUrl", .str original_url),
      (cs "createdAt", .str created_at)])) := by
  obtain ⟨st2, hfold, hT, hP, hS⟩ :=
    foldComponents_preserves components ⟨cs "", cs "", 0, cs "0"⟩ hall
  refine ⟨st2.description, ?_⟩
  have hstock : parseUsize st2.stock = some 0 := by rw [hS]; rfl
  simp [lookupBranch, hn, hp, hc, hsn, hu, hcr, hfold, hstock, hT, hP]

/-- Witness for the amended claim C5: a concrete lookup fixture with one
ignored component and no product_content succeeds with the zero-value
defaults. -/
theorem c5_defaults_witness :
    ∃ desc, lookupBranch (cs "good") (fun _ => some lookupNoContent)
      = .respond 200 (.jsonBody (.obj [
        (cs "success", .bool true),
        (cs "title", .str (cs "")),
        (cs "description", .str desc),
        (cs "price", .num 0),
        (cs "stock", .num 0),
        (cs "storeName", .str (cs "Store")),
        (cs "originalUrl", .str (cs "https://www.tokopedia.com/store/thing")),
        (cs "createdAt", .str (cs "2020"))])) :=
  c5_defaults_when_no_product_content (cs "good") (fun _ => some lookupNoContent) lookupNoContent
    [.obj [(cs "name", .str (cs "product_media"))]] (cs "Store")
    (cs "https://www.tokopedia.com/store/thing") (cs "2020") rfl rfl rfl rfl rfl rfl
    (by
      intro c hc
      simp only [List.mem_singleton] at hc
      subst hc
      exact ⟨cs "product_media", rfl, by decide, fun hpd => absurd hpd (by decide)⟩)
